import Mathlib

/-!
# Verification of the Hypatia engine's resource-loading and sprite runtime

Shallow embedding of `hypatia/resources.py`, `hypatia/filehandlers.py` and
`hypatia/sprites.py`.  Pixel surfaces are modelled as column-major grids of
abstract colour codes; byte payloads as lists of byte values; fallible
Python code (exceptions) as `Option` or explicit result inductives.
-/

namespace Hypatia

/-- A raw byte payload (the result of `open(...).read()` /
`zip_file.open(...).read()`), one natural number per byte. -/
abbrev Bytes := List Nat

/-! ## Pixel surfaces (`pygame.Surface` as used by this code)

The code uses `get_size`, `get_at`, `set_at` and `copy`.  A surface is a
grid of colour codes, indexed `pix[x][y]` matching `surface.get_at((x, y))`;
`copy` is implicit (values are immutable in the embedding). -/

structure Surface where
  pix : List (List Nat)
deriving DecidableEq, Repr, Inhabited

def Surface.width (s : Surface) : Nat := s.pix.length

def Surface.height (s : Surface) : Nat := (s.pix.headD []).length

/-- `surface.get_size()` -/
def Surface.get_size (s : Surface) : Nat × Nat := (s.width, s.height)

/-- `surface.get_at((x, y))` (only ever called in bounds by this code). -/
def Surface.get_at (s : Surface) (c : Nat × Nat) : Nat :=
  (s.pix.getD c.1 []).getD c.2 0

/-- `surface.set_at((x, y), v)` -/
def Surface.set_at (s : Surface) (c : Nat × Nat) (v : Nat) : Surface :=
  ⟨s.pix.set c.1 ((s.pix.getD c.1 []).set c.2 v)⟩

/-! ## `AnimatedSpriteFrame` -/

/-- `AnimatedSpriteFrame(surface, start_time, duration)`; `end_time` is the
derived attribute `start_time + duration`.  (The optional `anchors`
attribute plays no role in any claim about the frame timing machine and is
modelled separately at the decoder level.) -/
structure Frame where
  surface : Surface
  start_time : Int
  duration : Int
deriving DecidableEq, Repr

instance : Inhabited Frame := ⟨⟨default, 0, 0⟩⟩

/-- `self.end_time = start_time + duration` -/
def Frame.end_time (f : Frame) : Int := f.start_time + f.duration

/-- `AnimatedSprite.total_duration(frames)`:
`sum([frame.duration for frame in frames])`. -/
def totalDuration (frames : List Frame) : Int :=
  (frames.map Frame.duration).sum

/-- `AnimatedSprite.from_surface_duration_list`: builds frames from
`[(surface, duration)]`, accumulating `running_time` as each frame's
start time. -/
def fromSurfaceDurationList (l : List (Surface × Int)) : List Frame :=
  (l.foldl
    (fun (acc : List Frame × Int) sd =>
      (acc.1 ++ [⟨sd.1, acc.2, sd.2⟩], acc.2 + sd.2))
    ([], 0)).1

/-! ## The `AnimatedSprite` cursor state machine (`AnimatedSprite.update`) -/

/-- The mutable cursor of an `AnimatedSprite`:
`animation_position` (milliseconds elapsed in the cycle) and
`active_frame_index`. -/
structure Cursor where
  pos : Int
  idx : Nat
deriving DecidableEq, Repr

/-- Errors `AnimatedSprite.update` can raise at runtime:
`ZeroDivisionError` from `%` by a zero `total_duration`, and `IndexError`
from the frame-advance loop running past the end of `frames`. -/
inductive UpdateErr where
  | zeroDivision
  | indexError
deriving DecidableEq, Repr

/-- Result of one `update` call. -/
inductive UpdRes where
  | ok (c : Cursor)
  | error (e : UpdateErr)
deriving DecidableEq, Repr

/-- The frame-advance loop, walking the suffix of the frame list that
starts at the current index while carrying the index itself: `suffix` is
`frames[idx:]`, so its head is exactly the `frames[idx]` the loop
condition reads. -/
def advanceFrom (pos : Int) : List Frame → Nat → Option Nat
  | [], _ => none
  | f :: rest, idx =>
    if pos > f.end_time then advanceFrom pos rest (idx + 1) else some idx

/-- The frame-advance loop
`while self.animation_position > self.frames[self.active_frame_index].end_time:
self.active_frame_index += 1`.  Evaluating the condition indexes
`frames[idx]`; an out-of-range index is Python's `IndexError`, modelled as
`none`. -/
def advanceIdx (frames : List Frame) (pos : Int) (idx : Nat) : Option Nat :=
  advanceFrom pos (frames.drop idx) idx

/-- `AnimatedSprite.update` restricted to the cursor state (the tick delta
is `clock.get_time()`):

1. `animation_position += delta`;
2. if `animation_position >= total_duration`, wrap with `%` (Python raises
   `ZeroDivisionError` when `total_duration` is zero) and reset the index;
3. run the frame-advance loop.

Python's `%` is floor-mod; for the nonnegative divisors that arise from
nonnegative frame durations (the zero divisor raises instead), floor-mod
agrees with Lean's `Int.emod` used here. -/
def updateCursor (frames : List Frame) (total : Int) (c : Cursor)
    (delta : Int) : UpdRes :=
  if c.pos + delta ≥ total then
    if total = 0 then
      .error .zeroDivision
    else
      match advanceIdx frames ((c.pos + delta) % total) 0 with
      | none => .error .indexError
      | some i => .ok ⟨(c.pos + delta) % total, i⟩
  else
    match advanceIdx frames (c.pos + delta) c.idx with
    | none => .error .indexError
    | some i => .ok ⟨c.pos + delta, i⟩

/-- `AnimatedSprite.active_frame()`: `self.frames[self.active_frame_index]`. -/
def activeFrame (frames : List Frame) (c : Cursor) : Frame :=
  frames.getD c.idx default

/-- `self.image = self.frames[self.active_frame_index - 1].surface` at the
end of `update`: for a zero index, Python's `-1` selects the *last* frame
(the documented off-by-one quirk). -/
def displayedSurface (frames : List Frame) (c : Cursor) : Surface :=
  (frames.getD (if c.idx = 0 then frames.length - 1 else c.idx - 1)
    default).surface

/-- Drive the cursor through a list of tick deltas, stopping at the first
runtime error. -/
def runUpdates (frames : List Frame) (total : Int) :
    Cursor → List Int → UpdRes
  | c, [] => .ok c
  | c, d :: ds =>
    match updateCursor frames total c d with
    | .error e => .error e
    | .ok c' => runUpdates frames total c' ds

/-! ## `AnimatedSprite.__init__` -/

/-- The attributes `AnimatedSprite.__init__` assigns. -/
structure AnimatedSprite where
  frames : List Frame
  total_duration : Int
  active_frame_index : Nat
  animation_position : Int
  image : Surface
deriving DecidableEq, Repr

/-- `AnimatedSprite.__init__(frames)`: stores the frames, computes the
total duration, zeroes the cursor and takes `frames[0].surface` as the
initial image — which raises `IndexError` (`none`) on an empty frame
list.  No other validation is performed. -/
def mkAnimatedSprite : List Frame → Option AnimatedSprite
  | [] => none
  | f :: rest =>
    some ⟨f :: rest, totalDuration (f :: rest), 0, 0, f.surface⟩

/-! ## File-name helpers (`os.path.splitext`, `os.path.split`, `str.split`)

Modelled for names with a nonempty root, as this code uses them (Python's
`splitext` additionally ignores leading dots of hidden files, which never
occur here). -/

/-- `os.path.splitext(s)[0]`: the name up to (excluding) the last dot, or
the whole name when there is no dot. -/
def splitextRoot (s : String) : String :=
  let cs := s.toList
  if cs.contains '.' then
    ⟨(((cs.reverse.dropWhile (· ≠ '.')).tail).reverse)⟩
  else
    s

/-- `os.path.splitext(s)[1]`: the last dot and everything after it, or the
empty string when there is no dot. -/
def splitextExt (s : String) : String :=
  let cs := s.toList
  if cs.contains '.' then
    ⟨'.' :: (cs.reverse.takeWhile (· ≠ '.')).reverse⟩
  else
    ""

/-- `os.path.split(s)[1]`: everything after the last `/`. -/
def basename (s : String) : String :=
  ⟨(s.toList.reverse.takeWhile (· ≠ '/')).reverse⟩

/-- `s.split('_', 1)` followed by a two-element unpack: `none` models the
`ValueError` when no underscore is present. -/
def splitUnderscoreOnce (s : String) : Option (String × String) :=
  let cs := s.toList
  if cs.contains '_' then
    some (⟨cs.takeWhile (· ≠ '_')⟩, ⟨(cs.dropWhile (· ≠ '_')).tail⟩)
  else
    none

/-! ## Decoded assets and file handlers (`hypatia/filehandlers.py`)

A `ConfigParser` document is identified by the byte payload it parsed:
the claims under study depend only on which payload gets parsed (and
when), never on the INI grammar itself. -/

/-- UTF-8 decoding, modelled on the ASCII fragment (no claim exercises
multi-byte sequences); `none` is Python's decode error. -/
def utf8Decode (b : Bytes) : Option Bytes :=
  if b.all (· < 128) then some b else none

/-- A parsed `ConfigParser` object, identified by its source payload. -/
structure ConfigDoc where
  src : Bytes
deriving DecidableEq, Repr

/-- `load_ini` on a raw payload: decode as UTF-8, then parse. -/
def load_ini (b : Bytes) : Option ConfigDoc :=
  (utf8Decode b).map fun _ => ⟨b⟩

/-- The value stored for one file name in `Resource.files`: either still
the raw payload, or the output of one of the four handlers.  A decoded
`.gif` is `sprite gifBytes anchors`: the pair of arguments this code
passes to `AnimatedSprite.from_file` (the PIL image decode itself is an
external library call). -/
inductive FileData where
  | raw (b : Bytes)
  | stream (b : Bytes)
  | text (t : Bytes)
  | config (c : ConfigDoc)
  | sprite (gif : Bytes) (anchors : Option ConfigDoc)
deriving DecidableEq, Repr

/-- Python-`dict` association list: insertion order preserved, overwrite
in place. -/
def dictInsert : List (String × FileData) → String → FileData →
    List (String × FileData)
  | [], k, v => [(k, v)]
  | (k', v') :: rest, k, v =>
    if k' = k then (k, v) :: rest else (k', v') :: dictInsert rest k v

/-- `files[k]` lookup (`None`-free: `none` is Python's `KeyError`). -/
def dictFind : List (String × FileData) → String → Option FileData
  | [], _ => none
  | (k', v') :: rest, k => if k' = k then some v' else dictFind rest k

/-- `load_png(files, file_name)`: wrap the raw payload in a `BytesIO`. -/
def load_png_h (files : List (String × FileData)) (file_name : String) :
    Option FileData :=
  match dictFind files file_name with
  | some (.raw b) => some (.stream b)
  | _ => none

/-- `load_txt(files, file_name)`: decode the raw payload as UTF-8. -/
def load_txt_h (files : List (String × FileData)) (file_name : String) :
    Option FileData :=
  match dictFind files file_name with
  | some (.raw b) => (utf8Decode b).map .text
  | _ => none

/-- `load_ini(files, file_name)` as registered in `FROM_EXTENSION`. -/
def load_ini_h (files : List (String × FileData)) (file_name : String) :
    Option FileData :=
  match dictFind files file_name with
  | some (.raw b) => (load_ini b).map .config
  | _ => none

/-- `load_gif(files, file_name)`: take the raw GIF payload, then resolve
the sidecar `<base>.ini` from the *current* state of the shared map:

* `KeyError` (absent): no anchors;
* the entry answers `.sections()` (already a parsed `ConfigParser`): use
  it as-is;
* the entry is raw bytes (`AttributeError`): decode on demand via
  `load_ini`;
* the entry is any other decoded value: `AttributeError`, then `load_ini`
  fails on the non-bytes value (`none`). -/
def load_gif_h (files : List (String × FileData)) (file_name : String) :
    Option FileData :=
  match dictFind files file_name with
  | some (.raw g) =>
    match dictFind files (splitextRoot file_name ++ ".ini") with
    | none => some (.sprite g none)
    | some (.config c) => some (.sprite g (some c))
    | some (.raw b) => (load_ini b).map fun c => .sprite g (some c)
    | some _ => none
  | _ => none

/-- `Resource.FROM_EXTENSION`: the static extension-to-handler table. -/
def fromExtension (ext : String) :
    Option (List (String × FileData) → String → Option FileData) :=
  if ext = ".ini" then some load_ini_h
  else if ext = ".gif" then some load_gif_h
  else if ext = ".png" then some load_png_h
  else if ext = ".txt" then some load_txt_h
  else none

/-! ## `Resource.__init__` (`hypatia/resources.py`) -/

/-- The directory branch: for each `os.listdir` entry, read the file and
store it under its bare name.  (The read is modelled as the byte payload;
this code targets Python 2, where text-mode `read()` returns bytes.) -/
def dirLoad (listing : List (String × Bytes)) : List (String × FileData) :=
  listing.foldl (fun files nd => dictInsert files nd.1 (.raw nd.2)) []

/-- The zip branch: for each `namelist()` entry, skip it when
`not file_name` (the empty name), otherwise read it fully and store it
under its path within the archive.  Note the guard tests name truthiness
only — a directory entry such as `"sub/"` is *not* skipped. -/
def zipLoad (entries : List (String × Bytes)) : List (String × FileData) :=
  entries.foldl
    (fun files nd => if nd.1 = "" then files else dictInsert files nd.1 (.raw nd.2))
    []

/-- One iteration of the decode pass for key `file_name`: look up the
handler for the extension (`os.path.splitext(file_name)[1]`);
if present, replace the entry with the handler's output (a handler raising
aborts the whole load: `none`); otherwise the entry is rewritten
unchanged. -/
def decodeStep (files : List (String × FileData)) (file_name : String) :
    Option (List (String × FileData)) :=
  match fromExtension (splitextExt file_name) with
  | none => some files
  | some handler =>
    (handler files file_name).map fun v => dictInsert files file_name v

/-- The decode pass `for file_name in files.keys(): ...`, with the
iteration order as an explicit parameter. -/
def decodePass (files : List (String × FileData)) :
    List String → Option (List (String × FileData))
  | [] => some files
  | k :: ks =>
    match decodeStep files k with
    | none => none
    | some files' => decodePass files' ks

/-- `Resource.__init__` when a directory exists at the path. -/
def resourceFromDir (listing : List (String × Bytes)) :
    Option (List (String × FileData)) :=
  let files := dirLoad listing
  decodePass files (files.map (·.1))

/-- `Resource.__init__` when only the zip archive exists. -/
def resourceFromZip (entries : List (String × Bytes)) :
    Option (List (String × FileData)) :=
  let files := zipLoad entries
  decodePass files (files.map (·.1))

/-- `Resource.get_type(file_extension)` (the `or None` of the source
collapses into the empty result; `Walkabout.__init__` treats the two
identically via `if not sprite_files`). -/
def getType (files : List (String × FileData)) (ext : String) :
    List (String × FileData) :=
  files.filter fun p => splitextExt p.1 = ext

/-! ## `Walkabout.__init__` (`hypatia/sprites.py`)

`hypatia/constants.py` is not among the sources provided; the two
enumerations are modelled from the spec. -/

/-- Modelled from the spec: the closed enumeration of walkabout actions
(`constants.Action`, absent from the provided sources); the spec names
`{stand, walk, …}` and `runtime_setup` uses exactly `walk` and `stand`. -/
inductive Action where
  | stand
  | walk
deriving DecidableEq, Repr

/-- Modelled from the spec: the closed enumeration of facing directions
(`constants.Direction`, absent from the provided sources); the spec names
`{north, south, east, west, …}` and `runtime_setup` uses exactly these
four. -/
inductive Direction where
  | north
  | south
  | east
  | west
deriving DecidableEq, Repr

/-- The token of an `Action`, as it appears in file names. -/
def Action.token : Action → String
  | .stand => "stand"
  | .walk => "walk"

/-- The token of a `Direction`, as it appears in file names. -/
def Direction.token : Direction → String
  | .north => "north"
  | .south => "south"
  | .east => "east"
  | .west => "west"

/-- `getattr(constants.Action, s)`: `none` is Python's `AttributeError`. -/
def parseAction (s : String) : Option Action :=
  if s = "stand" then some .stand
  else if s = "walk" then some .walk
  else none

/-- `getattr(constants.Direction, s)`: `none` is Python's
`AttributeError`. -/
def parseDirection (s : String) : Option Direction :=
  if s = "north" then some .north
  else if s = "south" then some .south
  else if s = "east" then some .east
  else if s = "west" then some .west
  else none

/-- Errors `Walkabout.__init__` can raise: the dedicated `BadWalkabout`
(zero `.gif` assets), Python's `AttributeError` (a `getattr` on an
unrecognized action or direction token) and Python's `ValueError` (a
file name without an underscore failing the two-element unpack). -/
inductive WalkErr where
  | badWalkabout
  | attributeError
  | valueError
deriving DecidableEq, Repr

/-- Result of parsing one sprite file name inside the constructor loop. -/
inductive NameRes where
  | ok (ad : Action × Direction)
  | error (e : WalkErr)
deriving DecidableEq, Repr

/-- The per-file body of the `Walkabout.__init__` loop: strip the
extension and any directory part; the literal name `only` maps to
`(stand, south)`; otherwise split once at the first underscore (a missing
underscore is a `ValueError`) and resolve the direction, then the action,
via `getattr` (an unknown token is an `AttributeError`). -/
def parseSpriteName (sprite_path : String) : NameRes :=
  let file_name := basename (splitextRoot sprite_path)
  if file_name = "only" then
    .ok (.stand, .south)
  else
    match splitUnderscoreOnce file_name with
    | none => .error .valueError
    | some (action, direction) =>
      match parseDirection direction with
      | none => .error .attributeError
      | some d =>
        match parseAction action with
        | none => .error .attributeError
        | some a => .ok (a, d)

/-- `AnimatedSprite.largest_frame_size`: fold over the frames keeping the
first size of strictly greatest area, starting from `(0, 0)`. -/
def largestFrameSize (frames : List Frame) : Nat × Nat :=
  frames.foldl
    (fun largest frame =>
      let fs := frame.surface.get_size
      if fs.1 * fs.2 > largest.1 * largest.2 then fs else largest)
    (0, 0)

/-- Result of `Walkabout.__init__`: the `(action, direction)` grid (as the
association list the loop builds into `self.animations`) and `self.size`. -/
inductive WalkRes where
  | ok (grid : List ((Action × Direction) × List Frame)) (size : Nat × Nat)
  | error (e : WalkErr)
deriving DecidableEq, Repr

/-- The `for sprite_path in sprite_files.keys()` loop of
`Walkabout.__init__`, also tracking the loop variable `animation`; after
the loop, `self.size = animation.largest_frame_size()` reads the *last*
value bound to that variable.  The `none` terminal case is unreachable:
`walkaboutInit` only enters the loop on a nonempty list. -/
def walkaboutLoop : List (String × List Frame) →
    List ((Action × Direction) × List Frame) → Option (List Frame) → WalkRes
  | [], grid, last? =>
    match last? with
    | some animation => .ok grid (largestFrameSize animation)
    | none => .error .badWalkabout
  | (sprite_path, animation) :: rest, grid, _ =>
    match parseSpriteName sprite_path with
    | .error e => .error e
    | .ok ad => walkaboutLoop rest (grid ++ [(ad, animation)]) (some animation)

/-- `Walkabout.__init__` from the `.gif` assets of the resource (each
already decoded to its animation frames — the PIL decode is external):
raise `BadWalkabout` when there are none, otherwise run the parsing
loop and record the nominal size. -/
def walkaboutInit (sprite_files : List (String × List Frame)) : WalkRes :=
  match sprite_files with
  | [] => .error .badWalkabout
  | fs => walkaboutLoop fs [] none

/-- Modelled from the spec: the pixel size (by area) of the largest frame
taken across *all* loaded animations — the quantity the spec says
`Walkabout.__init__` records as the nominal bounding size. -/
def largestAcrossAnimations (animations : List (List Frame)) : Nat × Nat :=
  largestFrameSize animations.flatten

/-! ## `palette_cycle` (`hypatia/sprites.py`) -/

/-- `itertools.product(range(0, width), range(0, height))`: raster order,
x outermost. -/
def rasterCoords (width height : Nat) : List (Nat × Nat) :=
  (List.range width).flatMap fun x => (List.range height).map fun y => (x, y)

/-- The first pass of `palette_cycle`: scan every pixel in raster order
and record each colour's first appearance, building the ordered,
duplicate-free palette (`ordered_color_list`; `seen_colors` is the
membership test). -/
def discoverPalette (s : Surface) : List Nat :=
  (rasterCoords s.width s.height).foldl
    (fun acc c =>
      let color := s.get_at c
      if color ∈ acc then acc else acc ++ [color])
    []

/-- `collections.deque.rotate(1)`: move the last element to the front. -/
def dequeRotate1 (l : List Nat) : List Nat :=
  match l.getLast? with
  | none => []
  | some x => x :: l.dropLast

/-- `dict(zip(old, new))[c]`: `none` is Python's `KeyError` (the palette
is duplicate-free, so first-match lookup coincides with dict
semantics). -/
def colorLookup : List (Nat × Nat) → Nat → Option Nat
  | [], _ => none
  | (k, v) :: rest, c => if k = c then some v else colorLookup rest c

/-- One pixel pass of `palette_cycle`: for each coordinate in raster
order, read the surface's current colour there, translate it through
`dict(zip(old_color_list, new_color_list))` and write it back.  Each
coordinate is visited exactly once, so reading the surface under
mutation only ever sees the not-yet-written pixel. -/
def cycleOnce (old_color_list new_color_list : List Nat) (s : Surface) :
    Option Surface :=
  (rasterCoords s.width s.height).foldl
    (fun acc c =>
      match acc with
      | none => none
      | some surf =>
        match colorLookup (old_color_list.zip new_color_list) (surf.get_at c) with
        | none => none
        | some v => some (surf.set_at c v))
    (some s)

/-- The `for rotation_i in range(len(ordered_color_list))` loop: rotate
the colour list, translate every pixel, emit the surface with a 250 ms
duration, and carry both the rotated list and the mutated surface into
the next iteration. -/
def paletteFrames : Nat → List Nat → Surface → Option (List (Surface × Int))
  | 0, _, _ => some []
  | k + 1, old_color_list, new_surface =>
    let new_color_list := dequeRotate1 old_color_list
    match cycleOnce old_color_list new_color_list new_surface with
    | none => none
    | some surf' =>
      match paletteFrames k new_color_list surf' with
      | none => none
      | some rest => some ((surf', 250) :: rest)

/-- `palette_cycle(surface)`: discover the palette, synthesize one frame
per palette colour, and build the result through
`AnimatedSprite.from_surface_duration_list`. -/
def palette_cycle (surface : Surface) : Option AnimatedSprite :=
  let ordered_color_list := discoverPalette surface
  match paletteFrames ordered_color_list.length ordered_color_list surface with
  | none => none
  | some frames => mkAnimatedSprite (fromSurfaceDurationList frames)

/-! ## Shared concrete inputs for the claims -/

/-- The two-frame animation of the boundary scenario: durations 100 ms and
150 ms, built through `AnimatedSprite.from_surface_duration_list`. -/
def framesC1 : List Frame :=
  fromSurfaceDurationList [(⟨[[0]]⟩, 100), (⟨[[1]]⟩, 150)]

/-- A one-frame animation whose single frame is a 3×3 surface. -/
def bigAnim : List Frame := [⟨⟨[[1, 1, 1], [1, 1, 1], [1, 1, 1]]⟩, 0, 100⟩]

/-- A one-frame animation whose single frame is a 1×1 surface. -/
def smallAnim : List Frame := [⟨⟨[[2]]⟩, 0, 100⟩]

/-- A raw map holding a GIF and its sidecar INI, as the directory loader
builds it. -/
def filesC5 : List (String × FileData) := dirLoad [("a.ini", [65]), ("a.gif", [71])]

/-- `filesC5` after the decode pass has processed `"a.ini"`: the sidecar
entry has been replaced in place by the parsed configuration object. -/
def filesC5' : List (String × FileData) :=
  [("a.ini", .config ⟨[65]⟩), ("a.gif", .raw [71])]

/-! ## The claims -/

/-- Claim C1 (confirmed): for the two-frame animation with durations
100 ms and 150 ms (total 250), from the initial cursor: ticking by 99
leaves the cursor at frame 0 (elapsed 99); ticking by 2 more advances to
frame 1 (elapsed 101); ticking by 150 more wraps (251 → 1) and resets to
frame 0 with elapsed 1.  "The frame shown" is `active_frame_index` /
`active_frame()` — the frame `Walkabout.blit` draws; the `image`
attribute additionally applies the documented `index - 1` quirk (see
`displayedSurface`). -/
theorem claim_C1 :
    totalDuration framesC1 = 250 ∧
    updateCursor framesC1 250 ⟨0, 0⟩ 99 = .ok ⟨99, 0⟩ ∧
    activeFrame framesC1 ⟨99, 0⟩ = ⟨⟨[[0]]⟩, 0, 100⟩ ∧
    updateCursor framesC1 250 ⟨99, 0⟩ 2 = .ok ⟨101, 1⟩ ∧
    activeFrame framesC1 ⟨101, 1⟩ = ⟨⟨[[1]]⟩, 100, 150⟩ ∧
    updateCursor framesC1 250 ⟨101, 1⟩ 150 = .ok ⟨1, 0⟩ ∧
    activeFrame framesC1 ⟨1, 0⟩ = ⟨⟨[[0]]⟩, 0, 100⟩ := by
  decide

/-- Claim C2, counterexample: contrary to the claim, a negative tick delta
is not rejected (the update succeeds and moves the cursor to a negative
position), a zero-total-duration animation is accepted by
`AnimatedSprite.__init__`, and the zero-duration failure that does occur
is a `ZeroDivisionError` at *update* time — no `InvalidArgument` error
exists anywhere in the code. -/
theorem claim_C2_counterexample :
    updateCursor framesC1 (totalDuration framesC1) ⟨0, 0⟩ (-9) = .ok ⟨-9, 0⟩ ∧
    (Cursor.mk (-9) 0 ≠ ⟨0, 0⟩) ∧
    mkAnimatedSprite [⟨⟨[[0]]⟩, 0, 0⟩] =
      some ⟨[⟨⟨[[0]]⟩, 0, 0⟩], 0, 0, 0, ⟨[[0]]⟩⟩ ∧
    updateCursor [⟨⟨[[0]]⟩, 0, 0⟩] (totalDuration [⟨⟨[[0]]⟩, 0, 0⟩]) ⟨0, 0⟩ 5 =
      .error .zeroDivision := by
  decide

/-- Claim C2 as amended: the per-tick transition performs no input
validation.  (1) A negative delta is simply added to the cursor: from the
initial cursor of any animation whose first frame ends at a nonnegative
time and whose total duration is nonnegative, any negative delta yields a
successful update to position `delta` (the cursor *changes*; nothing is
rejected).  (2) `AnimatedSprite.__init__` accepts a zero total duration.
(3) On a zero-total-duration animation, any update whose accumulated
position is nonnegative raises `ZeroDivisionError` — at update time, not
construction time. -/
theorem claim_C2_amended :
    (∀ (f : Frame) (rest : List Frame) (delta : Int), delta < 0 →
       0 ≤ f.end_time → 0 ≤ totalDuration (f :: rest) →
       updateCursor (f :: rest) (totalDuration (f :: rest)) ⟨0, 0⟩ delta =
         .ok ⟨delta, 0⟩) ∧
    mkAnimatedSprite [⟨⟨[[0]]⟩, 0, 0⟩] =
      some ⟨[⟨⟨[[0]]⟩, 0, 0⟩], 0, 0, 0, ⟨[[0]]⟩⟩ ∧
    (∀ (frames : List Frame) (c : Cursor) (delta : Int),
       totalDuration frames = 0 → 0 ≤ c.pos + delta →
       updateCursor frames (totalDuration frames) c delta =
         .error .zeroDivision) := by
  refine ⟨fun f rest delta h1 h2 h3 => ?_, by decide, fun frames c delta h0 hge => ?_⟩
  · rw [updateCursor]
    rw [if_neg (by simp only []; omega)]
    simp only [advanceIdx, List.drop_zero, advanceFrom]
    rw [if_neg (by omega)]
    simp
  · rw [h0, updateCursor]
    rw [if_pos (by simpa using hge), if_pos rfl]

/-- Witness for the amended claim C2, at the two-frame animation and
delta `-5`. -/
theorem claim_C2_witness :
    updateCursor [⟨⟨[[0]]⟩, 0, 100⟩] (totalDuration [⟨⟨[[0]]⟩, 0, 100⟩])
      ⟨0, 0⟩ (-5) = .ok ⟨-5, 0⟩ :=
  claim_C2_amended.1 ⟨⟨[[0]]⟩, 0, 100⟩ [] (-5) (by decide) (by decide) (by decide)

/-- Claim C4, the code bug evaluated: a zip whose `namelist()` is
`["sub/", "sub/a.txt"]` (a directory entry plus a file).  The guard
`if not file_name` skips only empty names, so the directory entry
`"sub/"` (whose `read()` yields the empty payload) *is* stored in the
raw map and survives the decode pass unchanged — contrary to the claim
and to the code's own comment about skipping the directories that
`namelist` generates. -/
theorem claim_C4_bug :
    dictFind (zipLoad [("sub/", []), ("sub/a.txt", [104, 105])]) "sub/" =
      some (.raw []) ∧
    resourceFromZip [("sub/", []), ("sub/a.txt", [104, 105])] =
      some [("sub/", .raw []), ("sub/a.txt", .text [104, 105])] := by
  decide

/-- Claim C5, counterexample: in the iteration order that processes the
sidecar `a.ini` before `a.gif`, by the time the GIF decoder runs, the
shared map's entry for `a.ini` is the already-decoded configuration
object (not raw bytes), and `load_gif` consumes that pre-decoded object
— the `.sections()` probe succeeds, so the on-demand `load_ini` fallback
never runs.  This refutes "decoders read only other raw entries; the
animated-image decoder reads the sidecar's raw bytes, not a pre-decoded
configuration object" for this order. -/
theorem claim_C5_counterexample :
    decodeStep filesC5 "a.ini" = some filesC5' ∧
    dictFind filesC5' "a.ini" = some (.config ⟨[65]⟩) ∧
    (∀ bs : Bytes, FileData.config ⟨[65]⟩ ≠ FileData.raw bs) ∧
    load_gif_h filesC5' "a.gif" = some (.sprite [71] (some ⟨[65]⟩)) := by
  refine ⟨by decide, by decide, fun bs => by simp, by decide⟩

/-- Claim C6, counterexample: a `.gif` whose name has an unrecognized
direction token fails `Walkabout.__init__` with Python's
`AttributeError` (from `getattr` on the direction enumeration), not with
the dedicated `BadWalkabout` error the claim names — `BadWalkabout` is
raised only when no `.gif` assets exist at all. -/
theorem claim_C6_counterexample :
    walkaboutInit [("foo_bar.gif", framesC1)] = .error .attributeError ∧
    WalkErr.attributeError ≠ WalkErr.badWalkabout := by
  decide

/-- Claim C6 as amended: construction parses each bare `.gif` name as the
literal `only` (mapped to `(stand, south)`) or as
`<action>_<direction>` validated against the closed enumerations, and
zero `.gif` assets raise `BadWalkabout`; but an unrecognized action or
direction token fails construction with `AttributeError` (and a name
with no underscore with `ValueError`), not with `BadWalkabout`. -/
theorem claim_C6_amended :
    walkaboutInit ([] : List (String × List Frame)) = .error .badWalkabout ∧
    (∀ anim : List Frame, walkaboutInit [("only.gif", anim)] =
       .ok [((.stand, .south), anim)] (largestFrameSize anim)) ∧
    (∀ (a : Action) (d : Direction),
       parseSpriteName (a.token ++ "_" ++ d.token ++ ".gif") = .ok (a, d)) ∧
    parseSpriteName "jump_north.gif" = .error .attributeError ∧
    parseSpriteName "walk_upward.gif" = .error .attributeError ∧
    parseSpriteName "foo.gif" = .error .valueError := by
  refine ⟨by decide, fun anim => rfl, fun a d => ?_, by decide, by decide, by decide⟩
  cases a <;> cases d <;> decide

/-- Claim C7, counterexample: with two loaded animations where the
*first* holds the largest frame (3×3) and the *last* a smaller one
(1×1), `Walkabout.__init__` records size `(1, 1)` — the largest frame of
the last animation bound by its loop — not the `(3, 3)` largest frame
across all loaded animations that the claim states. -/
theorem claim_C7_counterexample :
    walkaboutInit [("walk_north.gif", bigAnim), ("walk_south.gif", smallAnim)] =
      .ok [((.walk, .north), bigAnim), ((.walk, .south), smallAnim)] (1, 1) ∧
    largestAcrossAnimations [bigAnim, smallAnim] = (3, 3) ∧
    ((1, 1) : Nat × Nat) ≠ (3, 3) := by
  decide

/-- The zip loader and the directory loader build identical raw maps from
identical listings, as long as no name is empty (the only thing the zip
branch's `if not file_name` guard ever skips). -/
lemma zipLoad_eq_dirLoad (l : List (String × Bytes)) (h : ∀ p ∈ l, p.1 ≠ "") :
    zipLoad l = dirLoad l := by
  rw [zipLoad, dirLoad]
  generalize ([] : List (String × FileData)) = acc
  induction l generalizing acc with
  | nil => rfl
  | cons x xs ih =>
    simp only [List.foldl_cons]
    rw [if_neg (h x (List.mem_cons_self x xs))]
    exact ih (fun p hp => h p (List.mem_cons_of_mem _ hp)) _

/-- Claim C3 (confirmed): a directory and a zip archive listing the same
file names with byte-identical contents produce the same decoded asset
map; the container type is irrelevant.  The premise that both containers
present the same (nonempty) names is exactly the claim's "modulo the
documented key-shape asymmetry for nested paths": nested zip entries have
no flat-directory counterpart and are excluded by sharing the listing. -/
theorem claim_C3 (l : List (String × Bytes)) (h : ∀ p ∈ l, p.1 ≠ "") :
    resourceFromZip l = resourceFromDir l := by
  rw [resourceFromZip, resourceFromDir, zipLoad_eq_dirLoad l h]

/-- Witness for claim C3 on a three-file resource (a text file plus a GIF
with its sidecar INI). -/
theorem claim_C3_witness :
    (∀ p ∈ [("a.txt", ([104] : Bytes)), ("b.gif", [71]), ("b.ini", [66])],
       p.1 ≠ "") ∧
    resourceFromZip [("a.txt", [104]), ("b.gif", [71]), ("b.ini", [66])] =
      resourceFromDir [("a.txt", [104]), ("b.gif", [71]), ("b.ini", [66])] :=
  ⟨by decide, claim_C3 _ (by decide)⟩

/-- Claim C5 as amended: `load_gif` reads the sidecar entry in whatever
state the shared map currently holds it — an already-decoded
configuration object is consumed as-is (its `.sections()` probe
succeeds), raw bytes are decoded on demand (the `AttributeError`
fallback), and an absent sidecar yields no anchors.  The resolved
configuration is the same whether or not the sidecar was decoded earlier
in the pass, which is what makes the pass's *result* order-independent. -/
theorem claim_C5_amended (files : List (String × FileData)) (gifName : String)
    (g b : Bytes) (hg : dictFind files gifName = some (.raw g))
    (hb : (utf8Decode b).isSome = true) :
    (dictFind files (splitextRoot gifName ++ ".ini") = some (.raw b) →
       load_gif_h files gifName = some (.sprite g (some ⟨b⟩))) ∧
    (dictFind files (splitextRoot gifName ++ ".ini") = some (.config ⟨b⟩) →
       load_gif_h files gifName = some (.sprite g (some ⟨b⟩))) ∧
    (dictFind files (splitextRoot gifName ++ ".ini") = none →
       load_gif_h files gifName = some (.sprite g none)) := by
  obtain ⟨t, ht⟩ := Option.isSome_iff_exists.mp hb
  refine ⟨fun hini => ?_, fun hini => ?_, fun hini => ?_⟩ <;>
    (simp only [load_gif_h, hg, hini, load_ini, ht]; try rfl)

/-- Witness for the amended claim C5: on the raw two-file map, the GIF
decoder decodes the still-raw sidecar on demand. -/
theorem claim_C5_witness :
    load_gif_h filesC5 "a.gif" = some (.sprite [71] (some ⟨[65]⟩)) :=
  (claim_C5_amended filesC5 "a.gif" [71] [65] (by decide) (by decide)).1 (by decide)

/-- The size recorded by the `Walkabout.__init__` loop is the largest
frame size of the animation its loop variable last held, i.e. of the last
entry of the (nonempty) asset list. -/
lemma walkaboutLoop_size (fs : List (String × List Frame)) :
    ∀ (grid grid' : List ((Action × Direction) × List Frame))
      (last? : Option (List Frame)) (sz : Nat × Nat), fs ≠ [] →
      walkaboutLoop fs grid last? = .ok grid' sz →
      ∃ p, fs.getLast? = some p ∧ sz = largestFrameSize p.2 := by
  induction fs with
  | nil => intro _ _ _ _ hne _; exact absurd rfl hne
  | cons x rest ih =>
    intro grid grid' last? sz _ h
    obtain ⟨path, anim⟩ := x
    cases hp : parseSpriteName path with
    | error e =>
      simp only [walkaboutLoop, hp] at h
      exact absurd h (by simp)
    | ok ad =>
      simp only [walkaboutLoop, hp] at h
      cases rest with
      | nil =>
        simp only [walkaboutLoop, WalkRes.ok.injEq] at h
        exact ⟨(path, anim), rfl, h.2.symm⟩
      | cons y t =>
        obtain ⟨p, hlast, hsz⟩ := ih _ _ _ _ (by simp) h
        exact ⟨p, by rw [List.getLast?_cons_cons]; exact hlast, hsz⟩

/-- Claim C7 as amended: when `Walkabout.__init__` succeeds, the nominal
bounding size it records is the largest frame size (by area) of the
*last* animation its loop iterated over — `self.size =
animation.largest_frame_size()` reads the leftover loop variable — not
of all loaded animations. -/
theorem claim_C7_amended (files : List (String × List Frame))
    (grid : List ((Action × Direction) × List Frame)) (sz : Nat × Nat)
    (h : walkaboutInit files = .ok grid sz) :
    ∃ p, files.getLast? = some p ∧ sz = largestFrameSize p.2 := by
  cases files with
  | nil =>
    simp only [walkaboutInit] at h
    exact absurd h (by simp)
  | cons x rest => exact walkaboutLoop_size (x :: rest) [] grid none sz (by simp) h

/-- Witness for the amended claim C7, on a single-animation walkabout. -/
theorem claim_C7_witness :
    ∃ p, [("only.gif", smallAnim)].getLast? = some p ∧
      (1, 1) = largestFrameSize p.2 :=
  claim_C7_amended [("only.gif", smallAnim)] [((.stand, .south), smallAnim)]
    (1, 1) (by decide)

/-! ## The frame-timeline invariant and the general cursor theorems -/

/-- The spec's `AnimationFrame` invariant, as a computable test: the
frames form a contiguous, non-overlapping timeline starting at `t`, with
nonnegative durations. -/
def contiguousFromB : Int → List Frame → Bool
  | _, [] => true
  | t, f :: rest =>
    decide (f.start_time = t) && decide (0 ≤ f.duration) &&
      contiguousFromB f.end_time rest

/-- The timeline invariant anchored at 0, as `AnimatedSprite` frame lists
built by `frames_from_gif` and `from_surface_duration_list` satisfy it. -/
def contiguousB (frames : List Frame) : Bool := contiguousFromB 0 frames

/-- On a contiguous timeline from `t`, the last frame ends at `t` plus
the total duration. -/
lemma end_time_getLast_of_contiguous :
    ∀ (frames : List Frame) (t : Int) (g : Frame),
      contiguousFromB t frames = true → frames.getLast? = some g →
      g.end_time = t + totalDuration frames := by
  intro frames
  induction frames with
  | nil => intro t g _ hg; exact absurd hg (by simp)
  | cons x rest ih =>
    intro t g hC hg
    simp only [contiguousFromB, Bool.and_eq_true, decide_eq_true_eq] at hC
    obtain ⟨⟨hx1, _⟩, hrest⟩ := hC
    cases rest with
    | nil =>
      simp only [List.getLast?_singleton, Option.some.injEq] at hg
      subst hg
      simp only [totalDuration, List.map_cons, List.map_nil, List.sum_cons,
        List.sum_nil, Frame.end_time]
      omega
    | cons y tl =>
      rw [List.getLast?_cons_cons] at hg
      have hy := ih x.end_time g hrest hg
      simp only [totalDuration, List.map_cons, List.sum_cons] at hy ⊢
      simp only [Frame.end_time] at hy ⊢
      omega

/-- The advance loop, run on the suffix `frames[idx:]`, stops at an index
below `idx + length` as soon as the position does not exceed the last
frame's end time. -/
lemma advanceFrom_ok :
    ∀ (suffix : List Frame) (pos : Int) (idx : Nat) (g : Frame),
      suffix.getLast? = some g → pos ≤ g.end_time →
      ∃ k, advanceFrom pos suffix idx = some k ∧ k < idx + suffix.length := by
  intro suffix
  induction suffix with
  | nil => intro pos idx g hg _; exact absurd hg (by simp)
  | cons f rest ih =>
    intro pos idx g hg hpos
    by_cases hc : pos > f.end_time
    · cases rest with
      | nil =>
        simp only [List.getLast?_singleton, Option.some.injEq] at hg
        subst hg
        omega
      | cons y tl =>
        rw [List.getLast?_cons_cons] at hg
        obtain ⟨k, hk, hkb⟩ := ih pos (idx + 1) g hg hpos
        refine ⟨k, ?_, ?_⟩
        · rw [advanceFrom, if_pos hc]
          exact hk
        · simp only [List.length_cons] at hkb ⊢
          omega
    · refine ⟨idx, ?_, by simp⟩
      rw [advanceFrom, if_neg hc]

/-- Dropping an in-range prefix does not change the last element. -/
lemma getLast?_drop_of_lt :
    ∀ (l : List Frame) (n : Nat), n < l.length → (l.drop n).getLast? = l.getLast? := by
  intro l
  induction l with
  | nil => intro n hn; simp at hn
  | cons x xs ih =>
    intro n hn
    cases n with
    | zero => rfl
    | succ m =>
      simp only [List.drop_succ_cons]
      rw [ih m (by simpa using Nat.lt_of_succ_lt_succ hn)]
      cases xs with
      | nil => simp at hn
      | cons y tl => rw [List.getLast?_cons_cons]

/-- The frame-advance loop of `update` terminates in bounds whenever the
start index is in range and the position does not exceed the last
frame's end time. -/
lemma advanceIdx_ok (frames : List Frame) (pos : Int) (idx : Nat) (g : Frame)
    (hidx : idx < frames.length) (hg : frames.getLast? = some g)
    (hpos : pos ≤ g.end_time) :
    ∃ k, advanceIdx frames pos idx = some k ∧ k < frames.length := by
  obtain ⟨k, hk, hkb⟩ :=
    advanceFrom_ok (frames.drop idx) pos idx g
      (by rw [getLast?_drop_of_lt frames idx hidx]; exact hg) hpos
  refine ⟨k, hk, ?_⟩
  rw [List.length_drop] at hkb
  omega

/-- The advance loop stops immediately at index 0 when the position does
not exceed the first frame's end time. -/
lemma advanceIdx_zero_stop (f : Frame) (rest : List Frame) (pos : Int)
    (hpos : ¬pos > f.end_time) :
    advanceIdx (f :: rest) pos 0 = some 0 := by
  rw [advanceIdx, List.drop_zero, advanceFrom, if_neg hpos]

/-- One `update` call on a contiguous positive-duration animation from an
in-bounds cursor with a nonnegative delta: it succeeds, the new position
is the old plus the delta modulo the total duration (hence in bounds),
the new index is in bounds, and a cursor that designates frame 0
whenever its position is 0 keeps doing so. -/
lemma updateCursor_ok (frames : List Frame) (hC : contiguousB frames = true)
    (htot : 0 < totalDuration frames) (c : Cursor) (d : Int)
    (hpos0 : 0 ≤ c.pos) (hposT : c.pos < totalDuration frames)
    (hidx : c.idx < frames.length) (hd : 0 ≤ d) :
    ∃ c', updateCursor frames (totalDuration frames) c d = .ok c' ∧
      c'.pos = (c.pos + d) % totalDuration frames ∧
      0 ≤ c'.pos ∧ c'.pos < totalDuration frames ∧ c'.idx < frames.length ∧
      ((c.pos = 0 → c.idx = 0) → (c'.pos = 0 → c'.idx = 0)) := by
  have hne : frames ≠ [] := by
    intro hnil
    rw [hnil] at htot
    simp [totalDuration] at htot
  obtain ⟨f0, rest, hfr⟩ : ∃ f0 rest, frames = f0 :: rest := by
    cases frames with
    | nil => exact absurd rfl hne
    | cons a l => exact ⟨a, l, rfl⟩
  have hg : frames.getLast? = some (frames.getLast hne) :=
    List.getLast?_eq_getLast_of_ne_nil hne
  have hgend : (frames.getLast hne).end_time = totalDuration frames := by
    have := end_time_getLast_of_contiguous frames 0 (frames.getLast hne) hC hg
    omega
  have hf0 : f0.start_time = 0 ∧ 0 ≤ f0.duration := by
    have := hC
    rw [contiguousB, hfr] at this
    simp only [contiguousFromB, Bool.and_eq_true, decide_eq_true_eq] at this
    exact this.1
  have hf0end : 0 ≤ f0.end_time := by
    rw [Frame.end_time]
    omega
  rw [updateCursor]
  by_cases hwrap : c.pos + d ≥ totalDuration frames
  · rw [if_pos hwrap, if_neg (by omega)]
    have hp'0 : 0 ≤ (c.pos + d) % totalDuration frames :=
      Int.emod_nonneg _ (by omega)
    have hp'T : (c.pos + d) % totalDuration frames < totalDuration frames :=
      Int.emod_lt_of_pos _ htot
    obtain ⟨k, hk, hkT⟩ :=
      advanceIdx_ok frames ((c.pos + d) % totalDuration frames) 0
        (frames.getLast hne) (by rw [hfr]; simp) hg (by omega)
    rw [hk]
    refine ⟨⟨(c.pos + d) % totalDuration frames, k⟩, rfl,
      rfl, hp'0, hp'T, hkT, ?_⟩
    intro _ hzp
    simp only at hzp
    rw [hzp] at hk
    rw [hfr] at hk
    rw [advanceIdx_zero_stop f0 rest 0 (by omega)] at hk
    simp only [Option.some.injEq] at hk
    simp only [hk.symm]
  · rw [if_neg hwrap]
    have hp'T : c.pos + d < totalDuration frames := by omega
    obtain ⟨k, hk, hkT⟩ :=
      advanceIdx_ok frames (c.pos + d) c.idx (frames.getLast hne) hidx hg
        (by omega)
    rw [hk]
    refine ⟨⟨c.pos + d, k⟩, rfl,
      (Int.emod_eq_of_lt (by omega) hp'T).symm,
      (by show (0 : Int) ≤ c.pos + d; omega), hp'T, hkT, ?_⟩
    intro hz0 hzp
    simp only at hzp
    have hcz : c.pos = 0 ∧ d = 0 := by omega
    rw [hzp] at hk
    have hidx0 : c.idx = 0 := hz0 hcz.1
    rw [hidx0, hfr] at hk
    rw [advanceIdx_zero_stop f0 rest 0 (by omega)] at hk
    simp only [Option.some.injEq] at hk
    simp only [hk.symm]

/-- Running a list of nonnegative deltas keeps the cursor in bounds, and
the final position is the delta sum modulo the total duration (a
position of 0 always coming with frame index 0). -/
lemma runUpdates_inv (frames : List Frame) (hC : contiguousB frames = true)
    (htot : 0 < totalDuration frames) :
    ∀ (ds : List Int) (c : Cursor), (∀ d ∈ ds, 0 ≤ d) →
      0 ≤ c.pos → c.pos < totalDuration frames → c.idx < frames.length →
      (c.pos = 0 → c.idx = 0) →
      ∃ c', runUpdates frames (totalDuration frames) c ds = .ok c' ∧
        c'.pos = (c.pos + ds.sum) % totalDuration frames ∧
        c'.idx < frames.length ∧ (c'.pos = 0 → c'.idx = 0) := by
  intro ds
  induction ds with
  | nil =>
    intro c _ hpos0 hposT hidx hz
    exact ⟨c, rfl, by rw [List.sum_nil, Int.add_zero,
      Int.emod_eq_of_lt hpos0 hposT], hidx, hz⟩
  | cons d ds ih =>
    intro c hds hpos0 hposT hidx hz
    obtain ⟨c₁, h₁, hp₁, hp₁0, hp₁T, hi₁, hz₁⟩ :=
      updateCursor_ok frames hC htot c d hpos0 hposT hidx
        (hds d (List.mem_cons_self d ds))
    obtain ⟨c', h', hp', hi', hz'⟩ :=
      ih c₁ (fun x hx => hds x (List.mem_cons_of_mem _ hx)) hp₁0 hp₁T hi₁
        (hz₁ hz)
    refine ⟨c', ?_, ?_, hi', hz'⟩
    · rw [runUpdates, h₁]
      exact h'
    · rw [hp', hp₁, List.sum_cons]
      rw [Int.emod_add_emod]
      congr 1
      omega

/-- Claim C9 (confirmed): for every animation whose frames form a
contiguous timeline from 0 with positive total duration, driving the
cursor from its initial state by any sequence of nonnegative deltas
summing to exactly one full total duration returns it to the initial
displayed frame: index 0, elapsed 0. -/
theorem claim_C9 (frames : List Frame) (hC : contiguousB frames = true)
    (htot : 0 < totalDuration frames) (ds : List Int)
    (hds : ∀ d ∈ ds, 0 ≤ d) (hsum : ds.sum = totalDuration frames) :
    runUpdates frames (totalDuration frames) ⟨0, 0⟩ ds = .ok ⟨0, 0⟩ := by
  have hlen : 0 < frames.length := by
    cases frames with
    | nil => simp [totalDuration] at htot
    | cons a l => simp
  obtain ⟨c', h', hp', _, hz'⟩ :=
    runUpdates_inv frames hC htot ds ⟨0, 0⟩ hds le_rfl htot hlen (fun _ => rfl)
  have hp0 : c'.pos = 0 := by
    rw [hp', hsum]
    simp [Int.add_comm]
  have hi0 : c'.idx = 0 := hz' hp0
  rw [h']
  cases c'
  simp only at hp0 hi0
  rw [hp0, hi0]

/-- Witness for claim C9: the two-frame 100 ms + 150 ms animation driven
by the deltas 99, 2, 149 (summing to the total duration 250) ends back at
index 0, elapsed 0. -/
theorem claim_C9_witness :
    ([99, 2, 149] : List Int).sum = totalDuration framesC1 ∧
    runUpdates framesC1 (totalDuration framesC1) ⟨0, 0⟩ [99, 2, 149] =
      .ok ⟨0, 0⟩ :=
  ⟨by decide,
   claim_C9 framesC1 (by decide) (by decide) [99, 2, 149] (by decide) (by decide)⟩

/-- Claim C10 (confirmed): for every animation whose frames form a
contiguous timeline from 0 with positive total duration, `update` with a
nonnegative delta from any cursor satisfying
`0 ≤ animation_position < total_duration` and
`active_frame_index < len(frames)` succeeds (no `IndexError`, no
`ZeroDivisionError` — the advance loop and every frame lookup stay in
bounds) and preserves both bounds. -/
theorem claim_C10 (frames : List Frame) (hC : contiguousB frames = true)
    (htot : 0 < totalDuration frames) (c : Cursor) (hpos0 : 0 ≤ c.pos)
    (hposT : c.pos < totalDuration frames) (hidx : c.idx < frames.length)
    (d : Int) (hd : 0 ≤ d) :
    ∃ c', updateCursor frames (totalDuration frames) c d = .ok c' ∧
      0 ≤ c'.pos ∧ c'.pos < totalDuration frames ∧ c'.idx < frames.length := by
  obtain ⟨c', h₁, _, h₃, h₄, h₅, _⟩ :=
    updateCursor_ok frames hC htot c d hpos0 hposT hidx hd
  exact ⟨c', h₁, h₃, h₄, h₅⟩

/-- Witness for claim C10: the two-frame animation, cursor at elapsed 42
on frame 0, delta 130. -/
theorem claim_C10_witness :
    ∃ c', updateCursor framesC1 (totalDuration framesC1) ⟨42, 0⟩ 130 =
        .ok c' ∧
      0 ≤ c'.pos ∧ c'.pos < totalDuration framesC1 ∧
      c'.idx < framesC1.length :=
  claim_C10 framesC1 (by decide) (by decide) ⟨42, 0⟩ (by decide) (by decide)
    (by decide) 130 (by decide)

/-- Claim C8 (confirmed): `palette_cycle` on a 2×1 surface with two
distinct colours `a` (at pixel (0,0)) and `b` (at pixel (1,0)) discovers
the palette `[a, b]` and produces exactly 2 frames of 250 ms each.
Frame 0 is the one-step cyclic palette rotation applied to the original
(`a ↦ b`, `b ↦ a`, i.e. the surface `[[b], [a]]`), which differs from
the original image; frame 1 applies the rotation a second time,
returning every pixel to its original colour (`[[a], [b]]`). -/
theorem claim_C8 (a b : Nat) (h : a ≠ b) :
    palette_cycle ⟨[[a], [b]]⟩ = some
      ⟨[⟨⟨[[b], [a]]⟩, 0, 250⟩, ⟨⟨[[a], [b]]⟩, 250, 250⟩], 500, 0, 0,
        ⟨[[b], [a]]⟩⟩ ∧
    Surface.mk [[b], [a]] ≠ ⟨[[a], [b]]⟩ := by
  have hba : b ≠ a := Ne.symm h
  constructor
  · simp [palette_cycle, discoverPalette, rasterCoords, Surface.width,
      Surface.height, Surface.get_at, Surface.set_at, paletteFrames, cycleOnce,
      dequeRotate1, colorLookup, fromSurfaceDurationList, mkAnimatedSprite,
      totalDuration, h, hba, List.range_succ]
  · simp [Surface.mk.injEq, h, hba]

/-- Witness for claim C8, at the concrete colours 0 and 1. -/
theorem claim_C8_witness :
    palette_cycle ⟨[[0], [1]]⟩ = some
      ⟨[⟨⟨[[1], [0]]⟩, 0, 250⟩, ⟨⟨[[0], [1]]⟩, 250, 250⟩], 500, 0, 0,
        ⟨[[1], [0]]⟩⟩ ∧
    Surface.mk [[1], [0]] ≠ ⟨[[0], [1]]⟩ :=
  claim_C8 0 1 (by decide)

end Hypatia
